import Mathlib

/-!
Verification of the task CRUD service (Express + PostgreSQL).

The development shallowly embeds the route handlers of
`src/routes/todos.js`, the error handler of
`src/middleware/errorHandler.js` and the validation layers
(express-validator chains and Joi schemas) as executable Lean
functions, together with the semantics of the generated SQL against an
in-memory table, and proves the testable properties stated in the
specification.
-/

set_option maxHeartbeats 1000000
set_option maxRecDepth 100000

namespace Todos

/-- A task row, mirroring the `tasks` table columns
(`id, title, description, priority, due_date, completed, created_at, updated_at`).
Timestamps are modelled as natural numbers, `due_date` as an opaque string. -/
structure Task where
  id : Nat
  title : String
  description : Option String
  priority : String
  dueDate : Option String
  completed : Bool
  createdAt : Nat
  updatedAt : Nat
deriving DecidableEq, Repr

/-- A bound SQL parameter value, as pushed into `queryParams` /
`countParams` / `values` by the route handlers. -/
inductive Val where
  | str (s : String)
  | boolVal (b : Bool)
  | intVal (n : Int)
deriving DecidableEq, Repr

/-- The query-string inputs of `GET /tasks`
(`const { page = 1, limit = 10, priority, completed, search } = req.query`).
`page` and `limit` are modelled after numeric parsing; the three filters
are `Option String` (absent query parameter = `none`). -/
structure ListQuery where
  page : Nat := 1
  limit : Nat := 10
  priority : Option String := none
  completed : Option String := none
  search : Option String := none
deriving DecidableEq, Repr

/-- Transcription of the data-query builder, `src/routes/todos.js`
lines 40-63.  JavaScript truthiness of a string (`if (priority)`,
`if (search)`) is non-emptiness; `completed !== undefined` is presence
of the parameter; `completed === 'true'` is the string comparison.
Returns the SQL text and the positional parameter list. -/
def dataQueryBuild (q : ListQuery) : String × List Val :=
  let query := "SELECT * FROM tasks WHERE 1=1"
  let queryParams : List Val := []
  let paramCount := 0
  let (query, queryParams, paramCount) :=
    match q.priority with
    | some p =>
        if p.isEmpty then (query, queryParams, paramCount)
        else (query ++ " AND priority = $" ++ toString (paramCount + 1),
              queryParams ++ [Val.str p], paramCount + 1)
    | none => (query, queryParams, paramCount)
  let (query, queryParams, paramCount) :=
    match q.completed with
    | some v =>
        (query ++ " AND completed = $" ++ toString (paramCount + 1),
         queryParams ++ [Val.boolVal (v == "true")], paramCount + 1)
    | none => (query, queryParams, paramCount)
  let (query, queryParams, paramCount) :=
    match q.search with
    | some s =>
        if s.isEmpty then (query, queryParams, paramCount)
        else (query ++ " AND (title ILIKE $" ++ toString (paramCount + 1) ++
                " OR description ILIKE $" ++ toString (paramCount + 2) ++ ")",
              queryParams ++ [Val.str ("%" ++ s ++ "%"), Val.str ("%" ++ s ++ "%")],
              paramCount + 2)
    | none => (query, queryParams, paramCount)
  (query ++ " ORDER BY created_at DESC LIMIT $" ++ toString (paramCount + 1) ++
     " OFFSET $" ++ toString (paramCount + 2),
   queryParams ++ [Val.intVal q.limit, Val.intVal ((q.page - 1) * q.limit)])

/-- Transcription of the count-query builder, `src/routes/todos.js`
lines 68-85, written independently of `dataQueryBuild` exactly as the
source duplicates the three filter blocks with its own
`countParamCount` counter. -/
def countQueryBuild (q : ListQuery) : String × List Val :=
  let countQuery := "SELECT COUNT(*) FROM tasks WHERE 1=1"
  let countParams : List Val := []
  let countParamCount := 0
  let (countQuery, countParams, countParamCount) :=
    match q.priority with
    | some p =>
        if p.isEmpty then (countQuery, countParams, countParamCount)
        else (countQuery ++ " AND priority = $" ++ toString (countParamCount + 1),
              countParams ++ [Val.str p], countParamCount + 1)
    | none => (countQuery, countParams, countParamCount)
  let (countQuery, countParams, countParamCount) :=
    match q.completed with
    | some v =>
        (countQuery ++ " AND completed = $" ++ toString (countParamCount + 1),
         countParams ++ [Val.boolVal (v == "true")], countParamCount + 1)
    | none => (countQuery, countParams, countParamCount)
  let (countQuery, countParams, countParamCount) :=
    match q.search with
    | some s =>
        if s.isEmpty then (countQuery, countParams, countParamCount)
        else (countQuery ++ " AND (title ILIKE $" ++ toString (countParamCount + 1) ++
                " OR description ILIKE $" ++ toString (countParamCount + 2) ++ ")",
              countParams ++ [Val.str ("%" ++ s ++ "%"), Val.str ("%" ++ s ++ "%")],
              countParamCount + 2)
    | none => (countQuery, countParams, countParamCount)
  (countQuery, countParams)

/-- One conjunct of the WHERE clause of the list queries, in the order
fixed by the specification: priority (exact), completed (exact),
search (ILIKE on title OR description). -/
inductive Conj where
  | prio (p : String)
  | compl (b : Bool)
  | srch (s : String)
deriving DecidableEq, Repr

/-- Modelled from the spec (section 4.1 step 2 and section 9): the
ordered sequence of conjunctive predicates determined by the present
filters, common to the data query and the count query. -/
def specConjs (q : ListQuery) : List Conj :=
  (match q.priority with
   | some p => if p.isEmpty then [] else [Conj.prio p]
   | none => [])
  ++ (match q.completed with
      | some v => [Conj.compl (v == "true")]
      | none => [])
  ++ (match q.search with
      | some s => if s.isEmpty then [] else [Conj.srch s]
      | none => [])

/-- Modelled from the spec (section 9): render one accumulated
predicate at a given parameter-counter position, returning the SQL
fragment, the bound values and the advanced counter. -/
def renderConj (n : Nat) : Conj → String × List Val × Nat
  | Conj.prio p => (" AND priority = $" ++ toString (n + 1), [Val.str p], n + 1)
  | Conj.compl b => (" AND completed = $" ++ toString (n + 1), [Val.boolVal b], n + 1)
  | Conj.srch s =>
      (" AND (title ILIKE $" ++ toString (n + 1) ++ " OR description ILIKE $" ++
         toString (n + 2) ++ ")",
       [Val.str ("%" ++ s ++ "%"), Val.str ("%" ++ s ++ "%")], n + 2)

/-- Modelled from the spec (section 9): render an ordered sequence of
predicates with positional placeholders numbered consecutively from
`n + 1`. -/
def renderConjs (n : Nat) : List Conj → String × List Val
  | [] => ("", [])
  | c :: cs =>
      let r := renderConj n c
      let rest := renderConjs r.2.2 cs
      (r.1 ++ rest.1, r.2.1 ++ rest.2)

/-- PostgreSQL `LIKE` pattern matching on character lists: `%` matches
any sequence, `_` matches any single character, a backslash escapes the
following character, and a pattern ending in a bare escape character
matches nothing (PostgreSQL raises an error for it). -/
def likeMatches : List Char → List Char → Bool
  | [], s => s.isEmpty
  | p :: ps, s =>
      if p = '%' then s.tails.any (fun s₂ => likeMatches ps s₂)
      else if p = '_' then
        (match s with
         | [] => false
         | _ :: s₂ => likeMatches ps s₂)
      else if p = '\\' then
        (match ps with
         | [] => false
         | p₂ :: ps₂ =>
             match s with
             | [] => false
             | c :: s₂ => p₂ == c && likeMatches ps₂ s₂)
      else
        (match s with
         | [] => false
         | c :: s₂ => p == c && likeMatches ps s₂)

/-- ASCII lowercasing of a string, as a character list. -/
def lcList (s : String) : List Char := s.data.map Char.toLower

/-- PostgreSQL `ILIKE`: case-insensitive `LIKE`, modelled by ASCII
case folding of both the text and the pattern. -/
def ilikeB (text pat : String) : Bool := likeMatches (lcList pat) (lcList text)

/-- Modelled from the spec (section 4.1): list starts-with test, the
building block of the substring predicate. -/
def startsWithCL : List Char → List Char → Bool
  | [], _ => true
  | _ :: _, [] => false
  | a :: as, b :: bs => a == b && startsWithCL as bs

/-- Modelled from the spec (section 4.1): `hasSubCL needle hay` holds
iff `needle` occurs as a contiguous sublist of `hay`. -/
def hasSubCL (needle : List Char) : List Char → Bool
  | [] => startsWithCL needle []
  | c :: rest => startsWithCL needle (c :: rest) || hasSubCL needle rest

/-- Modelled from the spec (section 4.1): case-insensitive substring
occurrence of `needle` in `hay`. -/
def substrCI (hay needle : String) : Bool := hasSubCL (lcList needle) (lcList hay)

/-- A character list free of the `LIKE` metacharacters `%`, `_` and the
escape character. -/
def noWild (l : List Char) : Bool :=
  l.all (fun c => !(c = '%' || c = '_' || c = '\\'))

/-- The row semantics of one WHERE-clause conjunct of the list queries:
`priority = $n` and `completed = $n` are exact comparisons, the search
conjunct is `title ILIKE '%s%' OR description ILIKE '%s%'` where a NULL
description never matches (SQL three-valued logic). -/
def conjHolds (t : Task) : Conj → Bool
  | Conj.prio p => t.priority == p
  | Conj.compl b => t.completed == b
  | Conj.srch s =>
      ilikeB t.title ("%" ++ s ++ "%") ||
        (match t.description with
         | some d => ilikeB d ("%" ++ s ++ "%")
         | none => false)

/-- The row semantics of the full WHERE clause shared by the data query
and the count query of `GET /tasks`. -/
def rowMatch (q : ListQuery) (t : Task) : Bool := (specConjs q).all (conjHolds t)

/-- Insertion of a task into a list sorted by `created_at` descending. -/
def insertDesc (t : Task) : List Task → List Task
  | [] => [t]
  | h :: r => if h.createdAt ≤ t.createdAt then t :: h :: r else h :: insertDesc t r

/-- `ORDER BY created_at DESC`: a stable sort by creation time,
most recent first. -/
def sortDesc : List Task → List Task
  | [] => []
  | h :: r => insertDesc h (sortDesc r)

/-- `Math.ceil(a / b)` for nonnegative integer inputs, as computed by
`Math.ceil(totalCount / parseInt(limit, 10))` in the handler. -/
def jsCeil (a b : Nat) : Nat := if a % b == 0 then a / b else a / b + 1

/-- Semantics of the count query: `SELECT COUNT(*)` over the rows
satisfying the WHERE clause. -/
def countTotal (table : List Task) (q : ListQuery) : Nat :=
  (table.filter (rowMatch q)).length

/-- Semantics of the data query: the matching rows ordered by
`created_at DESC`, with `OFFSET (page - 1) * limit` and `LIMIT limit`
applied. -/
def dataRows (table : List Task) (q : ListQuery) : List Task :=
  ((sortDesc (table.filter (rowMatch q))).drop ((q.page - 1) * q.limit)).take q.limit

/-- The pagination object of the list response envelope. -/
structure Pagination where
  page : Nat
  limit : Nat
  total : Nat
  pages : Nat
deriving DecidableEq, Repr

/-- The `{ tasks, pagination }` envelope returned by `GET /tasks`. -/
structure ListResponse where
  tasks : List Task
  pagination : Pagination
deriving DecidableEq, Repr

/-- The `GET /tasks` handler (`src/routes/todos.js` lines 38-101):
executes the data query and the count query against the table and
assembles the response envelope. -/
def listTasks (table : List Task) (q : ListQuery) : ListResponse :=
  let totalCount := countTotal table q
  { tasks := dataRows table q,
    pagination :=
      { page := q.page, limit := q.limit, total := totalCount,
        pages := jsCeil totalCount q.limit } }

/-- The `GET /tasks/:id` handler (`src/routes/todos.js` lines 105-128):
the `param` check rejects non-positive ids with 400; otherwise
`SELECT * FROM tasks WHERE id = $1` and 404 on an empty result. -/
def getTaskById (table : List Task) (id : Nat) : Nat × Option Task :=
  if id < 1 then (400, none)
  else
    match table.find? (fun t => t.id == id) with
    | none => (404, none)
    | some t => (200, some t)

/-- The `DELETE /tasks/:id` handler (`src/routes/todos.js` lines
232-256): the `param` check rejects non-positive ids with 400;
`DELETE FROM tasks WHERE id = $1 RETURNING *` returns the deleted rows,
an empty result is 404, otherwise `res.status(204).send()` sends an
empty body.  Returns (status, response body, resulting table). -/
def deleteTask (table : List Task) (id : Nat) : Nat × Option Task × List Task :=
  if id < 1 then (400, none, table)
  else
    let deleted := table.filter (fun t => t.id == id)
    if deleted.length == 0 then (404, none, table)
    else (204, none, table.filter (fun t => !(t.id == id)))

/-- A JSON body field: absent from the body, explicit `null`, or a
present value of the expected type. -/
inductive JField (α : Type) where
  | absent
  | null
  | val (a : α)
deriving DecidableEq, Repr

/-- The body of `POST /tasks` after JSON parsing, typed per field. -/
structure CreateBody where
  title : JField String := JField.absent
  description : JField String := JField.absent
  priority : JField String := JField.absent
  dueDate : JField String := JField.absent
  completed : JField Bool := JField.absent
deriving DecidableEq, Repr

/-- ASCII whitespace, the character class stripped by the `trim()`
sanitizer. -/
def isWS (c : Char) : Bool :=
  c = ' ' || c = '\t' || c = '\n' || c = '\r' || c = '\x0b' || c = '\x0c'

/-- String trimming: strip leading and trailing whitespace. -/
def trimStr (s : String) : String :=
  String.mk (((s.data.dropWhile isWS).reverse.dropWhile isWS).reverse)

/-- The `body('title').trim()` sanitizer of the express-validator
chain, which mutates `req.body.title` in place before validation. -/
def sanitizeCreate (b : CreateBody) : CreateBody :=
  { b with title := match b.title with
                    | JField.val s => JField.val (trimStr s)
                    | x => x }

/-- The express-validator chain of `POST /tasks` (`src/routes/todos.js`
lines 132-136).  Missing or null values are coerced to the empty string
by the library before a validator runs; `optional()` skips only absent
fields.  `isISO8601` is the library date check, kept abstract as `iso`
(with `iso "" = false` hard-coded, as the library rejects the coerced
empty string). -/
def evCreateOk (iso : String → Bool) (b : CreateBody) : Bool :=
  (match b.title with
   | JField.val s => decide (1 ≤ s.length) && decide (s.length ≤ 255)
   | _ => false)
  && (match b.description with
      | JField.val s => decide (s.length ≤ 1000)
      | _ => true)
  && (match b.priority with
      | JField.absent => true
      | JField.null => false
      | JField.val s => s == "low" || s == "medium" || s == "high")
  && (match b.dueDate with
      | JField.absent => true
      | JField.null => false
      | JField.val s => iso s)
  && (match b.completed with
      | JField.absent => true
      | JField.null => false
      | JField.val _ => true)

/-- The Joi schema `createTaskSchema` (`src/routes/todos.js` lines
7-13), as run by `validateRequest`: `Joi.string()` rejects `null` and
the empty string; `title` is required with length 1-255; `description`
is optional with length at most 1000; `priority` must be one of the
three enum values; `dueDate` must be an ISO date (`isoJ`, abstract);
`completed` must be a boolean.  The defaults of the schema do not feed
back into the request body because the handler discards the validated
value. -/
def joiCreateOk (isoJ : String → Bool) (b : CreateBody) : Bool :=
  (match b.title with
   | JField.val s => decide (1 ≤ s.length) && decide (s.length ≤ 255)
   | _ => false)
  && (match b.description with
      | JField.absent => true
      | JField.null => false
      | JField.val s => decide (1 ≤ s.length) && decide (s.length ≤ 1000))
  && (match b.priority with
      | JField.absent => true
      | JField.null => false
      | JField.val s => s == "low" || s == "medium" || s == "high")
  && (match b.dueDate with
      | JField.absent => true
      | JField.null => false
      | JField.val s => isoJ s)
  && (match b.completed with
      | JField.absent => true
      | JField.null => false
      | JField.val _ => true)

/-- JavaScript `x || null` on a string-typed body field, as used for
the inserted `description` and `due_date` values: absent, null and the
empty string all collapse to SQL NULL. -/
def jsOrNull : JField String → Option String
  | JField.val s => if s.isEmpty then none else some s
  | _ => none

/-- The string value of a field that validation guarantees present. -/
def jsStr : JField String → String
  | JField.val s => s
  | _ => ""

/-- The `POST /tasks` handler (`src/routes/todos.js` lines 131-158):
sanitize, validate with Joi (the `validateRequest` middleware responds
400 first), then with the recorded express-validator errors, then
`INSERT INTO tasks (title, description, priority, due_date, completed)
VALUES ($1, $2, $3, $4, $5) RETURNING *` with the JavaScript defaults
`priority || 'medium'` and `completed || false`.  `freshId` and `now`
stand for the server-assigned id and timestamp. -/
def postTask (iso isoJ : String → Bool) (freshId now : Nat) (b : CreateBody) :
    Nat × Option Task :=
  let b₁ := sanitizeCreate b
  if !joiCreateOk isoJ b₁ then (400, none)
  else if !evCreateOk iso b₁ then (400, none)
  else
    (201, some
      { id := freshId,
        title := jsStr b₁.title,
        description := jsOrNull b₁.description,
        priority := match b₁.priority with
                    | JField.val s => if s.isEmpty then "medium" else s
                    | _ => "medium",
        dueDate := jsOrNull b₁.dueDate,
        completed := match b₁.completed with
                     | JField.val c => c || false
                     | _ => false,
        createdAt := now,
        updatedAt := now })

/-- The body of `PUT /tasks/:id` after JSON parsing and validation:
every field optional, `some x` meaning the field is present
(`!== undefined`). -/
structure UpdateBody where
  title : Option String := none
  description : Option String := none
  priority : Option String := none
  dueDate : Option String := none
  completed : Option Bool := none
deriving DecidableEq, Repr

/-- One `SET` assignment pushed into `updateFields` by the dynamic
update builder, including the final `updated_at = NOW()`. -/
inductive Assign where
  | setTitle (s : String)
  | setDescription (s : String)
  | setPriority (s : String)
  | setDueDate (s : String)
  | setCompleted (b : Bool)
  | touchUpdatedAt
deriving DecidableEq, Repr

/-- The dynamic update builder of `PUT /tasks/:id`
(`src/routes/todos.js` lines 188-211): one assignment per present body
field, in the fixed source order. -/
def buildUpdateAssigns (b : UpdateBody) : List Assign :=
  (match b.title with
   | some x => [Assign.setTitle x]
   | none => [])
  ++ (match b.description with
      | some x => [Assign.setDescription x]
      | none => [])
  ++ (match b.priority with
      | some x => [Assign.setPriority x]
      | none => [])
  ++ (match b.dueDate with
      | some x => [Assign.setDueDate x]
      | none => [])
  ++ (match b.completed with
      | some x => [Assign.setCompleted x]
      | none => [])

/-- SQL semantics of a single `SET` assignment on a row. -/
def applyAssign (now : Nat) (t : Task) : Assign → Task
  | Assign.setTitle s => { t with title := s }
  | Assign.setDescription s => { t with description := some s }
  | Assign.setPriority s => { t with priority := s }
  | Assign.setDueDate s => { t with dueDate := some s }
  | Assign.setCompleted b => { t with completed := b }
  | Assign.touchUpdatedAt => { t with updatedAt := now }

/-- SQL semantics of a `SET` list, applied left to right. -/
def applyAssigns (now : Nat) (t : Task) (l : List Assign) : Task :=
  l.foldl (applyAssign now) t

/-- The `PUT /tasks/:id` handler (`src/routes/todos.js` lines 161-229):
positive-id check, existence check by `SELECT`, 400 `No fields to
update` when the built assignment list is empty, otherwise `UPDATE
tasks SET <assignments>, updated_at = NOW() WHERE id = $n RETURNING *`.
Returns (status, response body, resulting table). -/
def putTask (table : List Task) (id : Nat) (b : UpdateBody) (now : Nat) :
    Nat × Option Task × List Task :=
  if id < 1 then (400, none, table)
  else
    match table.find? (fun t => t.id == id) with
    | none => (404, none, table)
    | some t =>
        let updateFields := buildUpdateAssigns b
        if updateFields.isEmpty then (400, none, table)
        else
          let assigns := updateFields ++ [Assign.touchUpdatedAt]
          (200, some (applyAssigns now t assigns),
           table.map (fun u => if u.id == id then applyAssigns now u assigns else u))

/-- An error object reaching the error-handling middleware: the fields
the handler inspects (`name`, `code`, `statusCode`, `message`,
`details`, `stack`). -/
structure JsError where
  name : Option String := none
  code : Option String := none
  statusCode : Option Nat := none
  message : String := ""
  details : Option String := none
  stack : String := ""
deriving DecidableEq, Repr

/-- The JSON error response produced by the error handler. -/
structure ErrResponse where
  error : String
  statusCode : Nat
  path : String
  method : String
  details : Option String
  stack : Option String
deriving DecidableEq, Repr

/-- The error-handling middleware (`src/middleware/errorHandler.js`):
the if-else chain over `err.name`, the PostgreSQL error codes 23505 /
23503 / 23502 / 42P01, `ECONNREFUSED`, and a truthy `err.statusCode`
(nonzero), defaulting to 500 `Internal Server Error`; in production a
500 message and details are reset; the stack is attached only in
development. -/
def errorHandler (env : String) (e : JsError) (path method : String) : ErrResponse :=
  let statusCode := 500
  let message := "Internal Server Error"
  let details : Option String := none
  let (statusCode, message, details) :=
    if e.name == some "ValidationError" then
      let dtl := match e.details with
                 | some d => if d.isEmpty then e.message else d
                 | none => e.message
      (400, "Validation Error", if dtl.isEmpty then none else some dtl)
    else if e.name == some "CastError" then (400, "Invalid ID format", details)
    else if e.code == some "23505" then (409, "Resource already exists", details)
    else if e.code == some "23503" then (400, "Referenced resource does not exist", details)
    else if e.code == some "23502" then (400, "Required field is missing", details)
    else if e.code == some "42P01" then (500, "Database table not found", details)
    else if e.code == some "ECONNREFUSED" then (503, "Database connection failed", details)
    else
      match e.statusCode with
      | some n => if n ≠ 0 then (n, e.message, details) else (statusCode, message, details)
      | none => (statusCode, message, details)
  let (message, details) :=
    if env == "production" && statusCode == 500 then ("Internal Server Error", none)
    else (message, details)
  { error := message,
    statusCode := statusCode,
    path := path,
    method := method,
    details := details,
    stack := if env == "development" then some e.stack else none }

/-- The five-row table of the concrete pagination scenario of the
specification (section 8): two high-priority incomplete tasks, two
medium tasks with mixed completion, one low-priority task. -/
def sampleTasks : List Task :=
  [{ id := 1, title := "t1", description := none, priority := "high",
     dueDate := none, completed := false, createdAt := 10, updatedAt := 10 },
   { id := 2, title := "t2", description := none, priority := "high",
     dueDate := none, completed := false, createdAt := 20, updatedAt := 20 },
   { id := 3, title := "t3", description := none, priority := "medium",
     dueDate := none, completed := true, createdAt := 30, updatedAt := 30 },
   { id := 4, title := "t4", description := none, priority := "medium",
     dueDate := none, completed := false, createdAt := 40, updatedAt := 40 },
   { id := 5, title := "t5", description := none, priority := "low",
     dueDate := none, completed := false, createdAt := 50, updatedAt := 50 }]

/-- A title of 256 identical characters, the rejected input of the
concrete creation scenario of the specification (section 8). -/
def longTitle : String := String.mk (List.replicate 256 'a')

/-- The single-row table of the search counterexample: one task whose
title is the one-character string `x`, with no description. -/
def cexTask : Task :=
  { id := 7, title := "x", description := none, priority := "medium",
    dueDate := none, completed := false, createdAt := 1, updatedAt := 1 }

/-- The single-row table of the backslash search counterexample: one
task whose title is the one-character string `%`. -/
def cexTaskPct : Task :=
  { id := 8, title := "%", description := none, priority := "medium",
    dueDate := none, completed := false, createdAt := 1, updatedAt := 1 }

/-- The data query builder produces exactly the canonical render of the
ordered filter predicates, numbered from 1, with base text, ORDER BY
tail and the two trailing pagination parameters. -/
theorem dataQueryBuild_eq (q : ListQuery) :
    dataQueryBuild q =
      ("SELECT * FROM tasks WHERE 1=1" ++ (renderConjs 0 (specConjs q)).1 ++
         " ORDER BY created_at DESC LIMIT $" ++
         toString ((renderConjs 0 (specConjs q)).2.length + 1) ++
         " OFFSET $" ++ toString ((renderConjs 0 (specConjs q)).2.length + 2),
       (renderConjs 0 (specConjs q)).2 ++
         [Val.intVal q.limit, Val.intVal ((q.page - 1) * q.limit)]) := by
  rcases q with ⟨page, limit, prio, compl, srch⟩
  rcases prio with _ | p <;> rcases compl with _ | v <;> rcases srch with _ | s
  · simp [dataQueryBuild, specConjs, renderConjs, renderConj] <;> decide
  · by_cases hs : s.isEmpty <;>
      simp [dataQueryBuild, specConjs, renderConjs, renderConj, hs] <;> decide
  · simp [dataQueryBuild, specConjs, renderConjs, renderConj] <;> decide
  · by_cases hs : s.isEmpty <;>
      simp [dataQueryBuild, specConjs, renderConjs, renderConj, hs] <;> decide
  · by_cases hp : p.isEmpty <;>
      simp [dataQueryBuild, specConjs, renderConjs, renderConj, hp] <;> decide
  · by_cases hp : p.isEmpty <;> by_cases hs : s.isEmpty <;>
      simp [dataQueryBuild, specConjs, renderConjs, renderConj, hp, hs] <;> decide
  · by_cases hp : p.isEmpty <;>
      simp [dataQueryBuild, specConjs, renderConjs, renderConj, hp] <;> decide
  · by_cases hp : p.isEmpty <;> by_cases hs : s.isEmpty <;>
      simp [dataQueryBuild, specConjs, renderConjs, renderConj, hp, hs] <;> decide

/-- The count query builder produces exactly the canonical render of
the same ordered filter predicates, numbered independently from 1. -/
theorem countQueryBuild_eq (q : ListQuery) :
    countQueryBuild q =
      ("SELECT COUNT(*) FROM tasks WHERE 1=1" ++ (renderConjs 0 (specConjs q)).1,
       (renderConjs 0 (specConjs q)).2) := by
  rcases q with ⟨page, limit, prio, compl, srch⟩
  rcases prio with _ | p <;> rcases compl with _ | v <;> rcases srch with _ | s
  · simp [countQueryBuild, specConjs, renderConjs, renderConj] <;> decide
  · by_cases hs : s.isEmpty <;>
      simp [countQueryBuild, specConjs, renderConjs, renderConj, hs] <;> decide
  · simp [countQueryBuild, specConjs, renderConjs, renderConj] <;> decide
  · by_cases hs : s.isEmpty <;>
      simp [countQueryBuild, specConjs, renderConjs, renderConj, hs] <;> decide
  · by_cases hp : p.isEmpty <;>
      simp [countQueryBuild, specConjs, renderConjs, renderConj, hp] <;> decide
  · by_cases hp : p.isEmpty <;> by_cases hs : s.isEmpty <;>
      simp [countQueryBuild, specConjs, renderConjs, renderConj, hp, hs] <;> decide
  · by_cases hp : p.isEmpty <;>
      simp [countQueryBuild, specConjs, renderConjs, renderConj, hp] <;> decide
  · by_cases hp : p.isEmpty <;> by_cases hs : s.isEmpty <;>
      simp [countQueryBuild, specConjs, renderConjs, renderConj, hp, hs] <;> decide

/-- Claim C2: for every combination of the optional filters, the two
independently built queries carry identical WHERE-clause predicates and
identical bound values in identical order (priority, completed,
search), each rendered with its own positional parameter numbering
starting at 1: both equal the canonical render of the ordered predicate
sequence, the data query adding only the ORDER BY / LIMIT / OFFSET tail
and its final two pagination parameters. -/
theorem count_query_mirrors_data_query (q : ListQuery) :
    dataQueryBuild q =
      ("SELECT * FROM tasks WHERE 1=1" ++ (renderConjs 0 (specConjs q)).1 ++
         " ORDER BY created_at DESC LIMIT $" ++
         toString ((renderConjs 0 (specConjs q)).2.length + 1) ++
         " OFFSET $" ++ toString ((renderConjs 0 (specConjs q)).2.length + 2),
       (renderConjs 0 (specConjs q)).2 ++
         [Val.intVal q.limit, Val.intVal ((q.page - 1) * q.limit)]) ∧
    countQueryBuild q =
      ("SELECT COUNT(*) FROM tasks WHERE 1=1" ++ (renderConjs 0 (specConjs q)).1,
       (renderConjs 0 (specConjs q)).2) :=
  ⟨dataQueryBuild_eq q, countQueryBuild_eq q⟩

/-- Membership is preserved by sorted insertion. -/
theorem mem_insertDesc {x t : Task} {l : List Task} :
    x ∈ insertDesc t l ↔ x = t ∨ x ∈ l := by
  induction l with
  | nil => simp [insertDesc]
  | cons h r ih =>
      by_cases hc : h.createdAt ≤ t.createdAt
      · simp [insertDesc, hc]
      · simp [insertDesc, hc, ih]
        tauto

/-- `ORDER BY` is a permutation: membership is unchanged by sorting. -/
theorem mem_sortDesc {x : Task} {l : List Task} : x ∈ sortDesc l ↔ x ∈ l := by
  induction l with
  | nil => simp [sortDesc]
  | cons h r ih => simp [sortDesc, mem_insertDesc, ih]

/-- `Math.ceil(a / b)` as computed by the handler is the exact rational
ceiling of `a / b` whenever the divisor is positive. -/
theorem jsCeil_eq_ceil (a b : Nat) (hb : 1 ≤ b) :
    (jsCeil a b : ℤ) = Int.ceil ((a : ℚ) / (b : ℚ)) := by
  have hb0 : (0 : ℚ) < (b : ℚ) := by exact_mod_cast hb
  obtain ⟨k, r, ha, hr, hjs⟩ :
      ∃ k r, a = b * k + r ∧ r < b ∧ jsCeil a b = if r = 0 then k else k + 1 := by
    refine ⟨a / b, a % b, (Nat.div_add_mod a b).symm, Nat.mod_lt a (by omega), ?_⟩
    unfold jsCeil
    by_cases h : a % b = 0 <;> simp [h]
  have haq : (a : ℚ) = (b : ℚ) * (k : ℚ) + (r : ℚ) := by exact_mod_cast ha
  rw [hjs]
  by_cases h : r = 0
  · subst h
    simp only [if_pos rfl]
    rw [haq]
    push_cast
    rw [mul_comm, add_zero, mul_div_assoc, div_self (ne_of_gt hb0), mul_one, Int.ceil_natCast]
  · simp only [if_neg h]
    have hr0 : (0 : ℚ) < (r : ℚ) := by exact_mod_cast Nat.pos_of_ne_zero h
    have hrb : (r : ℚ) < (b : ℚ) := by exact_mod_cast hr
    symm
    rw [Int.ceil_eq_iff]
    constructor
    · have e : ((((k + 1 : ℕ) : ℤ)) : ℚ) - 1 = (k : ℚ) := by push_cast; ring
      rw [e, lt_div_iff₀ hb0, haq]
      nlinarith
    · have e : ((((k + 1 : ℕ) : ℤ)) : ℚ) = (k : ℚ) + 1 := by push_cast; ring
      rw [e, div_le_iff₀ hb0, haq]
      nlinarith

/-- Claim C1: for every combination of the optional filters, every row
of the returned page satisfies the full WHERE clause, and the `total`
field of the pagination envelope counts the whole matching set of the
table — it does not depend on which page is requested and is not the
size of the returned page. -/
theorem list_page_satisfies_filters_and_total (table : List Task) (q : ListQuery) :
    (∀ t ∈ (listTasks table q).tasks, rowMatch q t = true) ∧
    (listTasks table q).pagination.total = (table.filter (rowMatch q)).length ∧
    (∀ p, (listTasks table { q with page := p }).pagination.total =
      (listTasks table q).pagination.total) := by
  refine ⟨?_, rfl, ?_⟩
  · intro t ht
    have h1 : t ∈ (sortDesc (table.filter (rowMatch q))).drop ((q.page - 1) * q.limit) :=
      List.mem_of_mem_take ht
    have h2 : t ∈ sortDesc (table.filter (rowMatch q)) := List.mem_of_mem_drop h1
    have h3 : t ∈ table.filter (rowMatch q) := mem_sortDesc.mp h2
    exact (List.mem_filter.mp h3).2
  · intro p
    rcases q with ⟨page, limit, prio, compl, srch⟩
    rfl

/-- Witness for claim C1 at a concrete table and query. -/
theorem list_page_satisfies_filters_and_total_witness :
    rowMatch { priority := some "high" } (sampleTasks.get ⟨0, by decide⟩) = true :=
  (list_page_satisfies_filters_and_total sampleTasks { priority := some "high" }).1
    (sampleTasks.get ⟨0, by decide⟩) (by decide)

/-- Claim C3: `pages` is the exact ceiling of `total / limit`, the
returned page never exceeds `limit` rows, the data query alone carries
`LIMIT limit OFFSET (page - 1) * limit` as its final two parameters,
and the concrete five-row scenario with `page = 1, limit = 2` yields
the pagination object `{page: 1, limit: 2, total: 5, pages: 3}`. -/
theorem pagination_envelope_correct (table : List Task) (q : ListQuery)
    (hl : 1 ≤ q.limit) :
    ((listTasks table q).pagination.pages : ℤ) =
      Int.ceil (((listTasks table q).pagination.total : ℚ) / (q.limit : ℚ)) ∧
    (listTasks table q).tasks.length ≤ q.limit ∧
    (∃ ps, (dataQueryBuild q).2 =
      ps ++ [Val.intVal q.limit, Val.intVal ((q.page - 1) * q.limit)]) ∧
    (listTasks sampleTasks { page := 1, limit := 2 }).pagination =
      { page := 1, limit := 2, total := 5, pages := 3 } := by
  refine ⟨jsCeil_eq_ceil (countTotal table q) q.limit hl, List.length_take_le _ _,
    ⟨(renderConjs 0 (specConjs q)).2, congrArg Prod.snd (dataQueryBuild_eq q)⟩, by decide⟩

/-- Witness for claim C3 at a concrete table and query. -/
theorem pagination_envelope_correct_witness :
    (1 ≤ (2 : Nat)) ∧
    ((listTasks sampleTasks { page := 1, limit := 2 }).pagination.pages : ℤ) =
      Int.ceil (((listTasks sampleTasks { page := 1, limit := 2 }).pagination.total : ℚ) /
        ((2 : Nat) : ℚ)) :=
  ⟨by decide,
   (pagination_envelope_correct sampleTasks { page := 1, limit := 2 } (by decide)).1⟩

/-- Unfolding equation of `likeMatches` on a cons pattern. -/
theorem likeMatches_cons (p : Char) (ps s : List Char) :
    likeMatches (p :: ps) s =
      (if p = '%' then s.tails.any (fun s₂ => likeMatches ps s₂)
       else if p = '_' then
         (match s with
          | [] => false
          | _ :: s₂ => likeMatches ps s₂)
       else if p = '\\' then
         (match ps with
          | [] => false
          | p₂ :: ps₂ =>
              match s with
              | [] => false
              | c :: s₂ => p₂ == c && likeMatches ps₂ s₂)
       else
         (match s with
          | [] => false
          | c :: s₂ => p == c && likeMatches ps s₂)) := by
  rw [likeMatches.eq_def]

/-- The pattern `%` matches every string. -/
theorem likeMatches_percent_nil (s : List Char) : likeMatches ['%'] s = true := by
  show likeMatches ('%' :: []) s = true
  rw [likeMatches_cons, if_pos rfl, List.any_eq_true]
  exact ⟨[], by simp [List.mem_tails], rfl⟩

/-- A metacharacter-free pattern followed by `%` matches exactly the
strings starting with that pattern. -/
theorem likeMatches_append_percent {p : List Char} (hp : noWild p = true) (s : List Char) :
    likeMatches (p ++ ['%']) s = startsWithCL p s := by
  induction p generalizing s with
  | nil => simp [startsWithCL, likeMatches_percent_nil]
  | cons a p ih =>
      simp only [noWild, List.all_cons, Bool.and_eq_true] at hp
      obtain ⟨ha, hp'⟩ := hp
      simp only [Bool.not_eq_eq_eq_not, Bool.not_true, Bool.or_eq_false_iff,
        decide_eq_false_iff_not] at ha
      obtain ⟨⟨ha1, ha2⟩, ha3⟩ := ha
      have hp2 : noWild p = true := hp'
      cases s with
      | nil =>
          rw [List.cons_append, likeMatches_cons, if_neg ha1, if_neg ha2, if_neg ha3]
          rfl
      | cons c s' =>
          rw [List.cons_append, likeMatches_cons, if_neg ha1, if_neg ha2, if_neg ha3]
          simp [startsWithCL, ih hp2]

/-- A leading `%` matches iff the rest of the pattern matches some
suffix. -/
theorem likeMatches_percent_cons (q s : List Char) :
    likeMatches ('%' :: q) s = true ↔ ∃ k, likeMatches q (s.drop k) = true := by
  rw [likeMatches_cons, if_pos rfl, List.any_eq_true]
  constructor
  · rintro ⟨t, ht, hm⟩
    rw [List.mem_tails] at ht
    obtain ⟨u, hu⟩ := ht
    exact ⟨u.length, by rw [← hu, List.drop_left]; exact hm⟩
  · rintro ⟨k, hk⟩
    exact ⟨s.drop k, by rw [List.mem_tails]; exact List.drop_suffix k s, hk⟩

/-- Substring occurrence is starts-with at some suffix. -/
theorem hasSubCL_iff (p s : List Char) :
    hasSubCL p s = true ↔ ∃ k, startsWithCL p (s.drop k) = true := by
  induction s with
  | nil =>
      simp only [hasSubCL]
      constructor
      · intro h; exact ⟨0, h⟩
      · rintro ⟨k, hk⟩; simpa [List.drop_nil] using hk
  | cons c s' ih =>
      simp only [hasSubCL, Bool.or_eq_true, ih]
      constructor
      · rintro (h | ⟨k, hk⟩)
        · exact ⟨0, h⟩
        · exact ⟨k + 1, hk⟩
      · rintro ⟨k, hk⟩
        cases k with
        | zero => exact Or.inl hk
        | succ k => exact Or.inr ⟨k, hk⟩

/-- For a metacharacter-free core `p`, the pattern `%p%` matches
exactly the strings containing `p` as a contiguous substring. -/
theorem likeMatches_substr {p : List Char} (hp : noWild p = true) (s : List Char) :
    likeMatches ('%' :: (p ++ ['%'])) s = hasSubCL p s := by
  rw [Bool.eq_iff_iff, likeMatches_percent_cons, hasSubCL_iff]
  constructor
  · rintro ⟨k, hk⟩
    exact ⟨k, by rwa [likeMatches_append_percent hp] at hk⟩
  · rintro ⟨k, hk⟩
    exact ⟨k, by rwa [likeMatches_append_percent hp]⟩

/-- ASCII lowercasing maps no character onto a `LIKE` metacharacter. -/
theorem toLower_not_wild {c : Char} (h1 : ¬ c = '%') (h2 : ¬ c = '_') (h3 : ¬ c = '\\') :
    ¬ Char.toLower c = '%' ∧ ¬ Char.toLower c = '_' ∧ ¬ Char.toLower c = '\\' := by
  by_cases hup : c.toNat ≥ 65 ∧ c.toNat ≤ 90
  · have hv : (c.toNat + 32).isValidChar := Or.inl (by omega)
    have ht : (Char.toLower c).toNat = c.toNat + 32 := by
      unfold Char.toLower
      rw [if_pos hup]
      unfold Char.ofNat
      rw [dif_pos hv]
      simp [Char.ofNatAux, Char.toNat, UInt32.toNat, BitVec.toNat_ofNat]
    refine ⟨?_, ?_, ?_⟩ <;> intro he <;>
      · have h37 := congrArg Char.toNat he
        rw [ht] at h37
        simp only [show ('%').toNat = 37 from rfl, show ('_').toNat = 95 from rfl,
          show ('\\').toNat = 92 from rfl] at h37
        omega
  · have ht : Char.toLower c = c := by
      unfold Char.toLower
      rw [if_neg hup]
    rw [ht]
    exact ⟨h1, h2, h3⟩

/-- Case folding preserves freedom from `LIKE` metacharacters. -/
theorem noWild_lcList {s : String} (h : noWild s.data = true) : noWild (lcList s) = true := by
  simp only [noWild, lcList, List.all_map, List.all_eq_true, Function.comp,
    Bool.not_eq_eq_eq_not, Bool.not_true, Bool.or_eq_false_iff,
    decide_eq_false_iff_not] at h ⊢
  intro c hc
  obtain ⟨⟨h1, h2⟩, h3⟩ := h c hc
  obtain ⟨g1, g2, g3⟩ := toLower_not_wild h1 h2 h3
  exact ⟨⟨g1, g2⟩, g3⟩

/-- Decomposition of the case-folded `'%' + search + '%'` pattern. -/
theorem lcList_pat (s : String) : lcList ("%" ++ s ++ "%") = '%' :: (lcList s ++ ['%']) := by
  simp [lcList, String.data_append]

/-- For metacharacter-free search strings, the generated
`ILIKE '%search%'` test is exactly case-insensitive substring
occurrence. -/
theorem ilike_substr (text s : String) (h : noWild s.data = true) :
    ilikeB text ("%" ++ s ++ "%") = substrCI text s := by
  unfold ilikeB substrCI
  rw [lcList_pat, likeMatches_substr (noWild_lcList h)]

/-- Counterexample to claim C4 as stated: with the search string `_`,
the task titled `x` is returned by the list endpoint although `_` is
not a substring of `x` (the underscore acts as a single-character
wildcard in the unescaped ILIKE pattern), and with the search string
`backslash percent` the task titled `%` is returned although that
two-character string is not a substring of `%`. -/
theorem search_wildcard_counterexample :
    ((listTasks [cexTask] { search := some "_" }).tasks = [cexTask] ∧
      substrCI cexTask.title "_" = false) ∧
    ((listTasks [cexTaskPct] { search := some "\\%" }).tasks = [cexTaskPct] ∧
      substrCI cexTaskPct.title "\\%" = false) := by decide

/-- Claim C4 (amended): for a present, nonempty search string that
contains none of the characters `%`, `_`, backslash, a row satisfies
the search predicate of the generated queries iff the search string
occurs as a case-insensitive substring of its title or of its (non-null)
description; in particular every row passing the full WHERE clause
satisfies that substring condition. -/
theorem search_filter_substring_iff (q : ListQuery) (s : String) (t : Task)
    (hq : q.search = some s) (hs : s.isEmpty = false) (hw : noWild s.data = true) :
    (conjHolds t (Conj.srch s) =
      (substrCI t.title s ||
        (match t.description with
         | some d => substrCI d s
         | none => false))) ∧
    (rowMatch q t = true →
      (substrCI t.title s ||
        (match t.description with
         | some d => substrCI d s
         | none => false)) = true) := by
  have hc : conjHolds t (Conj.srch s) =
      (substrCI t.title s ||
        (match t.description with
         | some d => substrCI d s
         | none => false)) := by
    simp only [conjHolds]
    rw [ilike_substr _ _ hw]
    cases t.description with
    | none => rfl
    | some d => simp only [ilike_substr _ _ hw]
  refine ⟨hc, fun hr => ?_⟩
  rw [← hc]
  have hmem : Conj.srch s ∈ specConjs q := by
    simp [specConjs, hq, hs]
  exact List.all_eq_true.mp hr _ hmem

/-- Witness for the amended claim C4 at a concrete search string and
row. -/
theorem search_filter_substring_iff_witness :
    conjHolds cexTask (Conj.srch "x") =
      (substrCI cexTask.title "x" ||
        (match cexTask.description with
         | some d => substrCI d "x"
         | none => false)) :=
  (search_filter_substring_iff { search := some "x" } "x" cexTask rfl (by decide)
    (by decide)).1

/-- The update builder followed by `updated_at = NOW()` performs
exactly the field-wise merge of the present body fields. -/
theorem applyAssigns_build (b : UpdateBody) (now : Nat) (t : Task) :
    applyAssigns now t (buildUpdateAssigns b ++ [Assign.touchUpdatedAt]) =
      { id := t.id, createdAt := t.createdAt, updatedAt := now,
        title := (match b.title with | some x => x | none => t.title),
        description := (match b.description with | some x => some x | none => t.description),
        priority := (match b.priority with | some x => x | none => t.priority),
        dueDate := (match b.dueDate with | some x => some x | none => t.dueDate),
        completed := (match b.completed with | some x => x | none => t.completed) } := by
  rcases b with ⟨bt, bd, bp, bdd, bc⟩
  rcases bt with _ | x1 <;> rcases bd with _ | x2 <;> rcases bp with _ | x3 <;>
    rcases bdd with _ | x4 <;> rcases bc with _ | x5 <;>
    simp [buildUpdateAssigns, applyAssigns, applyAssign]

/-- The built assignment list is empty exactly for the all-absent
body. -/
theorem build_empty_iff (b : UpdateBody) : buildUpdateAssigns b = [] ↔ b = {} := by
  rcases b with ⟨bt, bd, bp, bdd, bc⟩
  rcases bt with _ | x1 <;> rcases bd with _ | x2 <;> rcases bp with _ | x3 <;>
    rcases bdd with _ | x4 <;> rcases bc with _ | x5 <;>
    simp [buildUpdateAssigns]

/-- Claim C5: updating an existing task with a subset of the updatable
fields changes exactly the specified fields and `updatedAt` (refreshed
to the present timestamp), keeping `id`, `createdAt` and every
unspecified field; a body with no updatable fields is rejected with 400
and leaves the table unchanged. -/
theorem put_partial_update_frame (table : List Task) (id : Nat) (b : UpdateBody)
    (now : Nat) (t : Task) (hid : 1 ≤ id)
    (ht : table.find? (fun u => u.id == id) = some t) :
    (b = {} → putTask table id b now = (400, none, table)) ∧
    (b ≠ {} →
      ∃ r, putTask table id b now =
          (200, some r,
           table.map (fun u => if u.id == id then
             applyAssigns now u (buildUpdateAssigns b ++ [Assign.touchUpdatedAt]) else u)) ∧
        r.id = t.id ∧ r.createdAt = t.createdAt ∧ r.updatedAt = now ∧
        r.title = (match b.title with | some x => x | none => t.title) ∧
        r.description = (match b.description with | some x => some x | none => t.description) ∧
        r.priority = (match b.priority with | some x => x | none => t.priority) ∧
        r.dueDate = (match b.dueDate with | some x => some x | none => t.dueDate) ∧
        r.completed = (match b.completed with | some x => x | none => t.completed)) := by
  have hid' : ¬ id < 1 := by omega
  constructor
  · rintro rfl
    simp [putTask, ht, hid', buildUpdateAssigns]
  · intro hne
    have hb : (buildUpdateAssigns b).isEmpty = false := by
      rcases h : buildUpdateAssigns b with _ | _
      · exact absurd ((build_empty_iff b).mp h) hne
      · rfl
    refine ⟨applyAssigns now t (buildUpdateAssigns b ++ [Assign.touchUpdatedAt]), ?_, ?_⟩
    · simp [putTask, ht, hid', hb]
    · rw [applyAssigns_build]
      exact ⟨rfl, rfl, rfl, rfl, rfl, rfl, rfl, rfl⟩

/-- Witness for claim C5: the empty update body on a concrete table is
rejected with 400 and the table is unchanged. -/
theorem put_partial_update_frame_witness :
    putTask sampleTasks 1 {} 99 = (400, none, sampleTasks) :=
  (put_partial_update_frame sampleTasks 1 {} 99 (sampleTasks.get ⟨0, by decide⟩)
    (by decide) (by decide)).1 rfl

/-- Claim C6: `POST /tasks` with body `{title: "Task"}` succeeds with
201 and the created task has the defaults `priority = "medium"` and
`completed = false`, while a title of 256 characters is rejected with a
400 validation error, for every behaviour of the external ISO-8601 date
check (the bodies carry no date). -/
theorem create_defaults_and_length_bound (iso isoJ : String → Bool) (freshId now : Nat) :
    (∃ t, postTask iso isoJ freshId now { title := JField.val "Task" } = (201, some t) ∧
      t.priority = "medium" ∧ t.completed = false) ∧
    postTask iso isoJ freshId now { title := JField.val longTitle } = (400, none) :=
  ⟨⟨_, rfl, rfl, rfl⟩, rfl⟩

/-- Counterexample to claim C7 as stated: with a valid title, an empty
description string — a description of at most 1000 characters — is
rejected with 400 rather than created with 201, and so is an explicit
null description (the Joi schema `Joi.string()` rejects the empty
string and `optional()` does not admit null). -/
theorem description_empty_null_counterexample :
    postTask (fun _ => true) (fun _ => true) 1 0
        { title := JField.val "Task", description := JField.val "" } = (400, none) ∧
    postTask (fun _ => true) (fun _ => true) 1 0
        { title := JField.val "Task", description := JField.null } = (400, none) :=
  ⟨rfl, rfl⟩

/-- Claim C7 (amended): with a valid title, every nonempty description
string of at most 1000 characters passes validation and the task is
created with 201; an absent description also passes; an empty or null
description is rejected with 400. -/
theorem description_validation (iso isoJ : String → Bool) (freshId now : Nat)
    (ti d : String) (ht1 : 1 ≤ (trimStr ti).length) (ht2 : (trimStr ti).length ≤ 255)
    (hd1 : 1 ≤ d.length) (hd2 : d.length ≤ 1000) :
    (postTask iso isoJ freshId now
      { title := JField.val ti, description := JField.val d }).1 = 201 ∧
    (postTask iso isoJ freshId now { title := JField.val ti }).1 = 201 ∧
    (postTask iso isoJ freshId now
      { title := JField.val ti, description := JField.val "" }).1 = 400 ∧
    (postTask iso isoJ freshId now
      { title := JField.val ti, description := JField.null }).1 = 400 := by
  refine ⟨?_, ?_, ?_, ?_⟩ <;>
    simp [postTask, sanitizeCreate, joiCreateOk, evCreateOk, ht1, ht2, hd1, hd2]

/-- Witness for the amended claim C7 at a concrete title and
description. -/
theorem description_validation_witness :
    (postTask (fun _ => true) (fun _ => true) 1 0
      { title := JField.val "Task", description := JField.val "x" }).1 = 201 :=
  (description_validation (fun _ => true) (fun _ => true) 1 0 "Task" "x"
    (by decide) (by decide) (by decide) (by decide)).1

/-- Claim C8: deleting an existing task returns 204 with an empty body
and removes the row, so that a subsequent fetch of the same id on the
resulting table returns 404; deleting a nonexistent id returns 404 and
leaves the table unchanged. -/
theorem delete_then_get (table : List Task) (id : Nat) (hid : 1 ≤ id) :
    ((∃ t ∈ table, t.id = id) →
      (deleteTask table id).1 = 204 ∧ (deleteTask table id).2.1 = none ∧
      getTaskById (deleteTask table id).2.2 id = (404, none)) ∧
    ((∀ t ∈ table, t.id ≠ id) → deleteTask table id = (404, none, table)) := by
  have hid' : ¬ id < 1 := by omega
  constructor
  · rintro ⟨t, htm, hteq⟩
    have hmem : t ∈ table.filter (fun u => u.id == id) :=
      List.mem_filter.mpr ⟨htm, by simp [hteq]⟩
    have hlen : ((table.filter (fun u => u.id == id)).length == 0) = false := by
      rcases h : table.filter (fun u => u.id == id) with _ | _
      · rw [h] at hmem; simp at hmem
      · rw [h]; rfl
    have hfind : (table.filter (fun u => !(u.id == id))).find? (fun u => u.id == id) = none := by
      rw [List.find?_eq_none]
      intro x hx
      have := (List.mem_filter.mp hx).2
      simpa using this
    refine ⟨?_, ?_, ?_⟩ <;> simp [deleteTask, getTaskById, hid', hlen, hfind]
  · intro hall
    have hnil : table.filter (fun u => u.id == id) = [] := by
      rw [List.filter_eq_nil_iff]
      intro x hx
      simpa using hall x hx
    simp [deleteTask, hid', hnil]

/-- Witness for claim C8: deleting the task with id 3 from the concrete
table and fetching id 3 afterwards. -/
theorem delete_then_get_witness :
    (deleteTask sampleTasks 3).1 = 204 ∧
    getTaskById (deleteTask sampleTasks 3).2.2 3 = (404, none) := by
  have h := (delete_then_get sampleTasks 3 (by decide)).1
    ⟨sampleTasks.get ⟨2, by decide⟩, by decide, by decide⟩
  exact ⟨h.1, h.2.2⟩

/-- Claim C9: the error handler maps storage-layer error signals by a
fixed lookup — 23505 to 409, 23503 to 400, 23502 to 400, ECONNREFUSED
to 503 — and an error carrying none of the recognised signals (no
special name, no recognised code, no nonzero statusCode) defaults to
500 with the generic message, no details, and a stack trace attached
only in the development environment. -/
theorem error_signal_lookup (env path method : String) (e : JsError)
    (h1 : e.name ≠ some "ValidationError") (h2 : e.name ≠ some "CastError") :
    (e.code = some "23505" → (errorHandler env e path method).statusCode = 409) ∧
    (e.code = some "23503" → (errorHandler env e path method).statusCode = 400) ∧
    (e.code = some "23502" → (errorHandler env e path method).statusCode = 400) ∧
    (e.code = some "ECONNREFUSED" → (errorHandler env e path method).statusCode = 503) ∧
    (e.code ≠ some "23505" → e.code ≠ some "23503" → e.code ≠ some "23502" →
      e.code ≠ some "42P01" → e.code ≠ some "ECONNREFUSED" →
      (∀ n, e.statusCode = some n → n = 0) →
      (errorHandler env e path method).statusCode = 500 ∧
      (errorHandler env e path method).error = "Internal Server Error" ∧
      (errorHandler env e path method).details = none ∧
      (env ≠ "development" → (errorHandler env e path method).stack = none)) := by
  refine ⟨fun hc => ?_, fun hc => ?_, fun hc => ?_, fun hc => ?_, ?_⟩
  · simp [errorHandler, h1, h2, hc]
  · simp [errorHandler, h1, h2, hc]
  · simp [errorHandler, h1, h2, hc]
  · simp [errorHandler, h1, h2, hc]
  · intro c1 c2 c3 c4 c5 hsc
    have hse : e.statusCode = none ∨ e.statusCode = some 0 := by
      rcases hs : e.statusCode with _ | n
      · exact Or.inl rfl
      · exact Or.inr (by rw [hsc n hs])
    have hE : errorHandler env e path method =
        { error := "Internal Server Error", statusCode := 500, path := path,
          method := method, details := none,
          stack := if env == "development" then some e.stack else none } := by
      rcases hse with hse | hse <;>
        simp [errorHandler, h1, h2, c1, c2, c3, c4, c5, hse]
    rw [hE]
    exact ⟨rfl, rfl, rfl, fun henv => by simp [henv]⟩

/-- Witness for claim C9 at a concrete unique-violation error in
production. -/
theorem error_signal_lookup_witness :
    (errorHandler "production" { code := some "23505" } "/tasks" "POST").statusCode = 409 :=
  (error_signal_lookup "production" "/tasks" "POST" { code := some "23505" }
    (by decide) (by decide)).1 rfl

/-- Claim C10: the completed filter is applied exactly when the
`completed` query parameter is present, comparing the stored flag with
the string comparison `value == "true"` — so any other present value
("false", "yes", "1", ...) filters for incomplete tasks instead of
being rejected or ignored — with the same bound value in the data query
and in the count query, and no filtering at all when the parameter is
absent. -/
theorem completed_filter_string_comparison (table : List Task) (v : String)
    (page lim : Nat) (hl : 1 ≤ lim) :
    ((listTasks table { page := page, limit := lim, completed := some v }).pagination.total =
      (table.filter (fun t => t.completed == (v == "true"))).length) ∧
    (∀ t ∈ (listTasks table { page := page, limit := lim, completed := some v }).tasks,
      t.completed = (v == "true")) ∧
    ((listTasks table { page := page, limit := lim }).pagination.total = table.length) ∧
    ((dataQueryBuild { page := page, limit := lim, completed := some v }).2 =
      [Val.boolVal (v == "true"), Val.intVal lim, Val.intVal ((page - 1) * lim)]) ∧
    ((countQueryBuild { page := page, limit := lim, completed := some v }).2 =
      [Val.boolVal (v == "true")]) := by
  have hpred : (fun t => rowMatch { page := page, limit := lim, completed := some v } t) =
      (fun t => t.completed == (v == "true")) := by
    funext t
    simp [rowMatch, specConjs, conjHolds]
  refine ⟨?_, ?_, ?_, ?_, ?_⟩
  · simp only [listTasks, countTotal, hpred]
  · intro t ht
    have h1 : t ∈ (sortDesc ((List.filter
        (fun t => rowMatch { page := page, limit := lim, completed := some v } t)
        table))).drop ((page - 1) * lim) := List.mem_of_mem_take ht
    have h2 := List.mem_of_mem_drop h1
    have h3 := mem_sortDesc.mp h2
    have h4 := (List.mem_filter.mp h3).2
    simpa [rowMatch, specConjs, conjHolds] using h4
  · simp [listTasks, countTotal, rowMatch, specConjs]
  · simp [dataQueryBuild]
  · simp [countQueryBuild]

/-- Witness for claim C10 at a concrete table and the parameter value
"yes". -/
theorem completed_filter_string_comparison_witness :
    (listTasks sampleTasks
        { page := 1, limit := 10, completed := some "yes" }).pagination.total =
      (sampleTasks.filter (fun t => t.completed == ("yes" == "true"))).length :=
  (completed_filter_string_comparison sampleTasks "yes" 1 10 (by decide)).1

end Todos
